import Mathlib

set_option maxHeartbeats 1000000

/-!
Shallow embedding of the Cave CLAP synthesizer plugin
(src/params.rs, src/gui.rs, src/lib.rs) and proofs about it.

Floating-point scalars (f32/f64) are modelled as exact real numbers.
Atomic loads become plain field reads and atomic stores functional updates;
the parameter store is threaded through the functions the source mutates it
from.  Fallible calls return `Except`; a `&mut self` method that can fail
returns the call's result together with the post-state.
-/

namespace Cave

/-! ### Parameter store (src/params.rs) -/

/-- Embeds `pub const PARAM_GAIN_ID: u32 = 0;`. -/
def PARAM_GAIN_ID : ℕ := 0

/-- Embeds `pub struct Params { pub gain: AtomicF32 }`; the atomic f32 cell
becomes a real-valued field. -/
structure Params where
  gain : ℝ

/-- Embeds `impl Default for Params`: `gain: AtomicF32::new(1.0)`. -/
def Params.default : Params := { gain := 1 }

/-- Embeds `pub fn set_gain(&self, v: f32)`:
`self.gain.store(v, Ordering::Relaxed)`. -/
def Params.set_gain (p : Params) (v : ℝ) : Params := { p with gain := v }

/-- A host `ParamValueEvent` as the store sees it: `event.param_id()` is an
optional parameter id, `event.value()` an f64 value. -/
structure ParamValueEvent where
  param_id : Option ℕ
  value : ℝ

/-- Embeds `pub fn handle_param_value_event(&self, event: &ParamValueEvent)`:
matches `Some(PARAM_GAIN_ID)` and stores `event.value() as f32`; any other
id (foreign or absent) is a no-op. -/
def Params.handle_param_value_event (p : Params) (e : ParamValueEvent) : Params :=
  match e.param_id with
  | some pid => if pid = PARAM_GAIN_ID then p.set_gain e.value else p
  | none => p

/-! ### Parameter descriptor surface (src/lib.rs, `impl PluginMainThreadParams`) -/

/-- The fields of `clack_extensions::params::ParamInfo` that `get_info`
fills in. -/
structure ParamInfo where
  id : ℕ
  is_automatable : Bool
  name : String
  min_value : ℝ
  max_value : ℝ
  default_value : ℝ

/-- Embeds `fn get_info(&mut self, param_index: u32, info: &mut ParamInfoWriter)`:
writes the single Gain descriptor for index 0 and nothing otherwise. -/
def get_info (param_index : ℕ) : Option ParamInfo :=
  if param_index ≠ 0 then none
  else some { id := PARAM_GAIN_ID, is_automatable := true, name := "Gain",
              min_value := 0, max_value := 1, default_value := 0.5 }

/-- Embeds `fn get_value(&mut self, param_id: ClapId) -> Option<f64>`:
the stored f32 gain widened to f64 (exact, hence the identity here). -/
def get_value (shared : Params) (param_id : ℕ) : Option ℝ :=
  if param_id = PARAM_GAIN_ID then some shared.gain else none

/-! ### GUI lifecycle controller (src/gui.rs and src/lib.rs `impl PluginGuiImpl`) -/

/-- The `raw_window_handle::RawWindowHandle` variants `CaveGui::open`
dispatches on in the Linux build; every remaining variant is `Other`. -/
inductive RawWindowHandle where
  | Xlib
  | Xcb
  | Wayland
  | Other
deriving DecidableEq

/-- An open `baseview::WindowHandle` rendering surface (opaque to the core). -/
inductive WindowHandle where
  | surface
deriving DecidableEq

/-- Embeds `pub struct CaveGui { pub parent: Option<RawWindowHandle>,
handle: Option<WindowHandle> }`. -/
structure CaveGui where
  parent : Option RawWindowHandle
  handle : Option WindowHandle

/-- Embeds `impl Default for CaveGui`: no parent, no surface. -/
def CaveGui.default : CaveGui := { parent := none, handle := none }

/-- The buffer error `port_pair.channels()` can surface (opaque to the
plugin; the `?` in `process` propagates it). -/
inductive BufferError where
  | invalidChannelBuffer
deriving DecidableEq

/-- `clack_plugin::plugin::PluginError` as this plugin produces it: a static
message, or a buffer error converted by the `?` operator. -/
inductive PluginError where
  | Message (s : String)
  | bufferError (e : BufferError)
deriving DecidableEq

/-- The spec's name (`ConfigurationError`) for the error `open()` returns
when no parent handle was ever recorded:
`PluginError::Message("No parent window provided")`. -/
def ConfigurationError : PluginError := .Message "No parent window provided"

/-- Embeds `pub fn is_open(&self) -> bool`: `self.handle.is_some()`. -/
def CaveGui.is_open (g : CaveGui) : Bool := g.handle.isSome

/-- Embeds `pub fn open(&mut self, params: Arc<CaveParams>)` (Linux build):
fails when no parent is recorded, refuses Wayland and unknown handle types,
and otherwise opens the egui surface.  Returns the call's result together
with the controller state after the call. -/
def CaveGui.openGui (g : CaveGui) (_params : Params) :
    Except PluginError Unit × CaveGui :=
  match g.parent with
  | none => (.error ConfigurationError, g)
  | some .Xlib => (.ok (), { g with handle := some .surface })
  | some .Xcb => (.ok (), { g with handle := some .surface })
  | some .Wayland =>
      (.error (.Message "Got Wayland parent handle; embedded editor not supported in this build"), g)
  | some .Other =>
      (.error (.Message "Unsupported parent window handle type"), g)

/-- Embeds `pub fn close(&mut self)`: closes any live surface and sets
`self.handle = None` (total, returns no result). -/
def CaveGui.close (g : CaveGui) : CaveGui := { g with handle := none }

/-- Embeds `fn hide(&mut self)` of `impl PluginGuiImpl` (src/lib.rs):
`self.gui.close(); Ok(())`. -/
def hide (g : CaveGui) : Except PluginError Unit × CaveGui := (.ok (), g.close)

/-- The spec's three controller states. -/
inductive GuiState where
  | NoParent
  | Closed
  | Open
deriving DecidableEq

/-- The spec state an embedded `CaveGui` is in: `NoParent` without a recorded
handle, else `Closed`/`Open` by whether a surface is live. -/
def CaveGui.state (g : CaveGui) : GuiState :=
  match g.parent, g.handle with
  | none, _ => .NoParent
  | some _, none => .Closed
  | some _, some _ => .Open

/-! ### Synthesis engine (src/lib.rs) -/

/-- A note event's key: `clack_plugin::events::Match::Specific(key)` or a
wildcard.  CLAP keys are the 0-127 note space; the source casts the carried
key with `as u8` before use. -/
inductive KeyMatch where
  | specific (key : ℕ)
  | wildcard

/-- The core events the `match` inside `process` dispatches on; every
unsupported or non-core event is `Other`.  The host's batches are flattened
into one list in delivery order. -/
inductive CoreEvent where
  | NoteOn (key : KeyMatch)
  | NoteOff (key : KeyMatch)
  | ParamValue (e : ParamValueEvent)
  | Other

/-- The `key as u8` cast. -/
def castU8 (k : ℕ) : ℕ := k % 256

noncomputable section

/-- Embeds `fn midi_to_freq(note: u8) -> f32`:
`440.0 * 2.0f32.powf((note as f32 - 69.0) / 12.0)`. -/
def midi_to_freq (note : ℕ) : ℝ := 440 * (2 : ℝ) ^ (((note : ℝ) - 69) / 12)

/-- Embeds `pub struct CaveAudioProcessor` (the audio-thread state; the
`shared` parameter-store reference is passed explicitly to the functions
that use it). -/
structure CaveAudioProcessor where
  phase : ℝ
  frequency : ℝ
  sample_rate : ℝ
  note_on : Bool

/-- Embeds `fn activate`: the initial audio-thread state at the host's
sample rate. -/
def activate (sample_rate : ℝ) : CaveAudioProcessor :=
  { phase := 0, frequency := 440, sample_rate := sample_rate, note_on := false }

/-- One event of the block's batch, as the `match` inside `process` handles
it: note-on with a specific key retunes and sounds the voice, note-off with
a specific key silences it, wildcard note events and unknown events are
ignored, a param-value event is forwarded to the store. -/
def handleEvent (s : CaveAudioProcessor) (sh : Params) :
    CoreEvent → CaveAudioProcessor × Params
  | .NoteOn (.specific key) =>
      ({ s with frequency := midi_to_freq (castU8 key), note_on := true }, sh)
  | .NoteOn .wildcard => (s, sh)
  | .NoteOff (.specific _) => ({ s with note_on := false }, sh)
  | .NoteOff .wildcard => (s, sh)
  | .ParamValue e => (s, sh.handle_param_value_event e)
  | .Other => (s, sh)

/-- The event-drain loop at the top of `process`, in delivery order. -/
def drainEvents (s : CaveAudioProcessor) (sh : Params) :
    List CoreEvent → CaveAudioProcessor × Params
  | [] => (s, sh)
  | e :: rest =>
      let r := handleEvent s sh e
      drainEvents r.1 r.2 rest

/-- Embeds the wrap after a per-sample advance:
`if self.phase > 1.0 { self.phase -= 1.0; }`. -/
def wrapPhase (phase : ℝ) : ℝ := if phase > 1 then phase - 1 else phase

/-- The body of the per-sample generation loop: one output sample and the
new phase.  While sounding the phase advances and wraps and the sample is
`(if phase < 0.5 { 1.0 } else { -1.0 }) * gain * 0.1`; while silent the
sample is `0.0` and the phase is untouched. -/
def genSample (note_on : Bool) (gain phase_step phase : ℝ) : ℝ × ℝ :=
  if note_on then
    let phase' := wrapPhase (phase + phase_step)
    ((if phase' < 0.5 then (1 : ℝ) else -1) * gain * 0.1, phase')
  else (0, phase)

/-- The synth scratch buffer (`synth_buffer`) for one port: the generation
loop over the port's frame count, returning the buffer and the final phase. -/
def genBuffer (note_on : Bool) (gain phase_step : ℝ) : ℝ → ℕ → List ℝ × ℝ
  | phase, 0 => ([], phase)
  | phase, n + 1 =>
      let r := genSample note_on gain phase_step phase
      let rest := genBuffer note_on gain phase_step r.2 n
      (r.1 :: rest.1, rest.2)

/-- The `ChannelPair` variants of a port's channel. -/
inductive ChannelKind where
  | inputOnly
  | outputOnly
  | inPlace
deriving DecidableEq

/-- One audio channel of a port: its pair kind and its buffer contents. -/
structure Channel where
  kind : ChannelKind
  data : List ℝ

/-- One audio port as `process` sees it: the host's frame count and the
`port_pair.channels()?.into_f32()` view — `.error` when `channels()` fails
(the `?` propagates it), `.ok none` when the buffers are not f32 (the loop
`continue`s), `.ok (some cs)` the f32 channel pairs. -/
structure Port where
  frames_count : ℕ
  channels : Except BufferError (Option (List Channel))

/-- A port whose f32 channel view is available. -/
def mkPort (n : ℕ) (cs : List Channel) : Port :=
  { frames_count := n, channels := .ok (some cs) }

/-- Embeds the copy loop: `out_buf.copy_from_slice(&synth_buffer)` on every
`OutputOnly` channel of the port; other channels are untouched. -/
def writeChannels (synth : List ℝ) (cs : List Channel) : List Channel :=
  cs.map fun c =>
    match c.kind with
    | .outputOnly => { c with data := synth }
    | _ => c

/-- `clack_plugin::process::ProcessStatus`. -/
inductive ProcessStatus where
  | Continue
  | ContinueIfNotQuiet
  | Sleep
  | Tail
deriving DecidableEq

/-- The port loop of `process`: threads the oscillator phase through the
ports, generating each port's synth buffer and copying it to the port's
output channels; a failing `channels()` aborts the whole call through `?`. -/
def processPorts (note_on : Bool) (gain phase_step : ℝ) :
    ℝ → List Port → Except PluginError (List Port × ℝ)
  | phase, [] => .ok ([], phase)
  | phase, p :: rest =>
      match p.channels with
      | .error e => .error (.bufferError e)
      | .ok none =>
          match processPorts note_on gain phase_step phase rest with
          | .error err => .error err
          | .ok r => .ok (p :: r.1, r.2)
      | .ok (some cs) =>
          let gen := genBuffer note_on gain phase_step phase p.frames_count
          match processPorts note_on gain phase_step gen.2 rest with
          | .error err => .error err
          | .ok r =>
              .ok ({ p with channels := .ok (some (writeChannels gen.1 cs)) } :: r.1, r.2)

/-- Embeds `fn process`: drain the event batch, read the gain once, compute
`phase_step = frequency / sample_rate`, run the port loop, and return
`ProcessStatus::Continue`.  The result carries the status, the processor
state, the parameter store and the written ports. -/
def process (s : CaveAudioProcessor) (shared : Params)
    (events : List CoreEvent) (audio : List Port) :
    Except PluginError (ProcessStatus × CaveAudioProcessor × Params × List Port) :=
  let d := drainEvents s shared events
  let gain := d.2.gain
  let phase_step := d.1.frequency / d.1.sample_rate
  match processPorts d.1.note_on gain phase_step d.1.phase audio with
  | .error e => .error e
  | .ok r => .ok (.Continue, { d.1 with phase := r.2 }, d.2, r.1)

/-! ### Spec-side descriptions (for the claims that compare the block loop
against a closed per-sample form) -/

/-- The phase trajectory the spec describes: the starting phase advanced `n`
times by `step`, wrapping each time. -/
def phaseAfter (step phase : ℝ) (n : ℕ) : ℝ :=
  (fun p => wrapPhase (p + step))^[n] phase

/-- The spec's per-sample output: sample `i` of a block starting at `phase`
is `+gain*0.1` when the advanced-and-wrapped phase is below one half,
`-gain*0.1` otherwise, and `0` while silent. -/
def squareSampleSpec (note_on : Bool) (gain step phase : ℝ) (i : ℕ) : ℝ :=
  if note_on then
    (if phaseAfter step phase (i + 1) < 0.5 then gain * 0.1 else -(gain * 0.1))
  else 0

/-- End-of-block phase: advanced once per sample while sounding, untouched
while silent. -/
def blockEndPhase (note_on : Bool) (step phase : ℝ) (n : ℕ) : ℝ :=
  if note_on then phaseAfter step phase n else phase

/-- The spec-described contents of a port's channels after one block: every
output channel holds the mono list of `squareSampleSpec` samples, computed
from the one gain value read for the block; other channels are untouched. -/
def specChannels (note_on : Bool) (gain step phase : ℝ) (n : ℕ)
    (cs : List Channel) : List Channel :=
  cs.map fun c =>
    if c.kind = ChannelKind.outputOnly
    then { c with data := List.map (squareSampleSpec note_on gain step phase) (List.range n) }
    else c

end

/-- The end-of-block phase of a successful `process` call. -/
def resultPhase
    (r : Except PluginError (ProcessStatus × CaveAudioProcessor × Params × List Port)) :
    Option ℝ :=
  match r with
  | .ok x => some x.2.1.phase
  | .error _ => none

/-- The status of a successful `process` call. -/
def resultStatus
    (r : Except PluginError (ProcessStatus × CaveAudioProcessor × Params × List Port)) :
    Option ProcessStatus :=
  match r with
  | .ok x => some x.1
  | .error _ => none

/-- An optional phase lies in the closed unit interval (vacuous for `none`). -/
def optPhaseInUnit (r : Option ℝ) : Prop :=
  match r with
  | some p => p ∈ Set.Icc (0 : ℝ) 1
  | none => True

/-- A port whose `channels()` call succeeds (the f32 view may still be
absent). -/
def channelsOk (p : Port) : Bool :=
  match p.channels with
  | .ok _ => true
  | .error _ => false

/-! ### Helper lemmas -/

/-- No event handler touches the phase accumulator. -/
theorem handleEvent_phase (s : CaveAudioProcessor) (sh : Params) (e : CoreEvent) :
    (handleEvent s sh e).1.phase = s.phase := by
  cases e with
  | NoteOn m => cases m <;> rfl
  | NoteOff m => cases m <;> rfl
  | ParamValue e => rfl
  | Other => rfl

/-- Draining an event batch leaves the phase accumulator untouched. -/
theorem drainEvents_phase (events : List CoreEvent) :
    ∀ s sh, (drainEvents s sh events).1.phase = s.phase := by
  induction events with
  | nil => intro s sh; rfl
  | cons e rest ih =>
      intro s sh
      show (drainEvents (handleEvent s sh e).1 (handleEvent s sh e).2 rest).1.phase = s.phase
      rw [ih, handleEvent_phase]

/-- Advancing the phase `n+1` times is advancing once, then `n` times. -/
theorem phaseAfter_succ (step phase : ℝ) (n : ℕ) :
    phaseAfter step phase (n + 1) = phaseAfter step (wrapPhase (phase + step)) n :=
  Function.iterate_succ_apply _ _ _

/-- The generation loop computes, sample by sample, the spec's closed form:
sample `i` is `squareSampleSpec` at index `i`, and the final phase is
`blockEndPhase`. -/
theorem genBuffer_eq (b : Bool) (g step : ℝ) (n : ℕ) :
    ∀ phase, genBuffer b g step phase n
      = (List.map (squareSampleSpec b g step phase) (List.range n),
         blockEndPhase b step phase n) := by
  induction n with
  | zero =>
      intro phase
      cases b <;> simp [genBuffer, blockEndPhase, phaseAfter]
  | succ n ih =>
      intro phase
      cases b with
      | false =>
          have key : genBuffer false g step phase (n + 1)
              = ((0 : ℝ) :: (genBuffer false g step phase n).1,
                 (genBuffer false g step phase n).2) := rfl
          rw [key, ih phase]
          simp [squareSampleSpec, blockEndPhase, List.range_succ_eq_map, List.map_map]
      | true =>
          have key : genBuffer true g step phase (n + 1)
              = ((genSample true g step phase).1
                   :: (genBuffer true g step (wrapPhase (phase + step)) n).1,
                 (genBuffer true g step (wrapPhase (phase + step)) n).2) := rfl
          rw [key, ih (wrapPhase (phase + step))]
          refine Prod.ext ?_ ?_
          · show (genSample true g step phase).1
                :: List.map (squareSampleSpec true g step (wrapPhase (phase + step))) (List.range n)
              = List.map (squareSampleSpec true g step phase) (List.range (n + 1))
            rw [List.range_succ_eq_map, List.map_cons, List.map_map]
            congr 1
            simp only [genSample, squareSampleSpec, phaseAfter, zero_add,
              Function.iterate_one, if_true]
            split_ifs <;> ring
          · show blockEndPhase true step (wrapPhase (phase + step)) n
                = blockEndPhase true step phase (n + 1)
            simp [blockEndPhase, phaseAfter_succ]

/-- The copy loop writes the same buffer to exactly the output channels. -/
theorem writeChannels_eq (synth : List ℝ) (cs : List Channel) :
    writeChannels synth cs
      = cs.map fun c =>
          if c.kind = ChannelKind.outputOnly then { c with data := synth } else c := by
  unfold writeChannels
  refine List.map_congr_left fun c _ => ?_
  cases hc : c.kind <;> simp [hc]

/-- Claim C1: for a block over a port with available f32 channels, letting
`(s1, sh1)` be the state and store after the event drain, `process`
succeeds and every output channel of the port receives the identical mono
sequence whose `i`-th sample is `squareSampleSpec` — `0` while silent, and
otherwise `±gain*0.1` by the advanced-and-wrapped phase — computed from the
single gain value `sh1.gain` read once for the whole block (`specChannels`);
non-output channels are untouched and the phase ends at `blockEndPhase`. -/
theorem process_block_output (s : CaveAudioProcessor) (shared : Params)
    (events : List CoreEvent) (n : ℕ) (cs : List Channel)
    (s1 : CaveAudioProcessor) (sh1 : Params)
    (hdrain : drainEvents s shared events = (s1, sh1)) :
    process s shared events [mkPort n cs]
      = .ok (.Continue,
             { s1 with phase :=
                 blockEndPhase s1.note_on (s1.frequency / s1.sample_rate) s1.phase n },
             sh1,
             [mkPort n (specChannels s1.note_on sh1.gain
                 (s1.frequency / s1.sample_rate) s1.phase n cs)]) := by
  have hgen := genBuffer_eq s1.note_on sh1.gain (s1.frequency / s1.sample_rate) n s1.phase
  have hpp : processPorts s1.note_on sh1.gain (s1.frequency / s1.sample_rate)
        s1.phase [mkPort n cs]
      = .ok ([{ mkPort n cs with channels := .ok (some (writeChannels
                 (genBuffer s1.note_on sh1.gain (s1.frequency / s1.sample_rate)
                   s1.phase n).1 cs)) }],
             (genBuffer s1.note_on sh1.gain (s1.frequency / s1.sample_rate)
               s1.phase n).2) := rfl
  rw [hgen] at hpp
  simp only [process, hdrain, hpp]
  rw [writeChannels_eq]
  rfl

/-- Witness for C1: an empty batch on the freshly activated processor over a
two-frame stereo port. -/
theorem process_block_output_witness :
    process (activate 48000) Params.default []
        [mkPort 2 [⟨.outputOnly, [3, 4]⟩, ⟨.outputOnly, [5, 6]⟩]]
      = .ok (.Continue,
             ⟨blockEndPhase false ((440 : ℝ) / 48000) 0 2, 440, 48000, false⟩,
             Params.default,
             [mkPort 2 (specChannels false 1 ((440 : ℝ) / 48000) 0 2
                 [⟨.outputOnly, [3, 4]⟩, ⟨.outputOnly, [5, 6]⟩])]) :=
  process_block_output (activate 48000) Params.default [] 2
    [⟨.outputOnly, [3, 4]⟩, ⟨.outputOnly, [5, 6]⟩] (activate 48000) Params.default rfl

/-- Claim C2 (code bug): at shared-state creation the stored gain is `1.0`
(`AtomicF32::new(1.0)` in `Default for Params`), while the descriptor
`get_info` declares default `0.5`; a host-facing `get_value(0)` before any
parameter event therefore reports `1.0`, not the declared default `0.5`. -/
theorem default_gain_mismatch :
    get_value Params.default PARAM_GAIN_ID = some 1
      ∧ (get_info 0).map ParamInfo.default_value = some 0.5
      ∧ (1 : ℝ) ≠ 0.5 :=
  ⟨rfl, rfl, by norm_num⟩

/-- Claim C5: for the valid parameter identifier, a get immediately after
`set(id, v)` returns `v` exactly, for every value `v` — also out-of-range
ones; neither `set_gain` nor the event path clamps or re-validates. -/
theorem set_then_get (p : Params) (v : ℝ) :
    (p.set_gain v).gain = v
      ∧ get_value (p.set_gain v) PARAM_GAIN_ID = some v
      ∧ (p.handle_param_value_event ⟨some PARAM_GAIN_ID, v⟩).gain = v :=
  ⟨rfl, rfl, rfl⟩

/-- Claim C6: `open()` with no parent handle recorded fails with
`ConfigurationError` and leaves the controller state untouched, in state
`NoParent`. -/
theorem open_without_parent (g : CaveGui) (p : Params) (h : g.parent = none) :
    g.openGui p = (.error ConfigurationError, g)
      ∧ (g.openGui p).2.state = .NoParent := by
  constructor
  · simp [CaveGui.openGui, h]
  · simp [CaveGui.openGui, CaveGui.state, h]

/-- Witness for C6 at the freshly constructed controller. -/
theorem open_without_parent_witness :
    CaveGui.default.openGui Params.default = (.error ConfigurationError, CaveGui.default)
      ∧ (CaveGui.default.openGui Params.default).2.state = .NoParent :=
  open_without_parent CaveGui.default Params.default rfl

/-- Claim C8: `close()` is idempotent and total — a second `close` changes
nothing, the surface handle is gone after any `close`, the parent handle is
kept, the resulting state is `Closed` when a parent was recorded and
`NoParent` otherwise, and `hide()` is the always-`Ok` wrapper around it. -/
theorem close_idempotent_total (g : CaveGui) :
    g.close.close = g.close
      ∧ g.close.handle = none
      ∧ g.close.parent = g.parent
      ∧ g.close.state = (if g.parent.isSome then GuiState.Closed else GuiState.NoParent)
      ∧ hide g = (.ok (), g.close) := by
  refine ⟨rfl, rfl, rfl, ?_, rfl⟩
  cases hp : g.parent <;> simp [CaveGui.state, CaveGui.close, hp]

/-- Claim C10: a note-on touches only the target frequency and the
note-active flag, a note-off only the note-active flag; in particular no
event resets the phase accumulator, so a newly sounding note continues from
the phase the oscillator last reached. -/
theorem note_events_touch_only_voice_flags (s : CaveAudioProcessor) (sh : Params)
    (k : ℕ) (events : List CoreEvent) :
    (handleEvent s sh (.NoteOn (.specific k))).1.phase = s.phase
      ∧ (handleEvent s sh (.NoteOn (.specific k))).1.sample_rate = s.sample_rate
      ∧ (handleEvent s sh (.NoteOn (.specific k))).1.note_on = true
      ∧ (handleEvent s sh (.NoteOff (.specific k))).1.phase = s.phase
      ∧ (handleEvent s sh (.NoteOff (.specific k))).1.sample_rate = s.sample_rate
      ∧ (handleEvent s sh (.NoteOff (.specific k))).1.frequency = s.frequency
      ∧ (handleEvent s sh (.NoteOff (.specific k))).1.note_on = false
      ∧ (drainEvents s sh events).1.phase = s.phase :=
  ⟨rfl, rfl, rfl, rfl, rfl, rfl, rfl, drainEvents_phase events s sh⟩

/-- Claim C3: in the drained batch, a note-on with a specific key `k` sets
the state to sounding and the target frequency to `440 * 2^((k-69)/12)`; a
note-off with a specific key silences the voice regardless of which key it
carries; wildcard-key note events are ignored; and the batch is drained in
delivery order. -/
theorem note_event_semantics (s : CaveAudioProcessor) (sh : Params) (k : ℕ)
    (e : CoreEvent) (rest : List CoreEvent) (hk : k ≤ 127) :
    handleEvent s sh (.NoteOn (.specific k))
        = ({ s with frequency := 440 * (2 : ℝ) ^ (((k : ℝ) - 69) / 12),
                    note_on := true }, sh)
      ∧ handleEvent s sh (.NoteOff (.specific k)) = ({ s with note_on := false }, sh)
      ∧ handleEvent s sh (.NoteOn .wildcard) = (s, sh)
      ∧ handleEvent s sh (.NoteOff .wildcard) = (s, sh)
      ∧ drainEvents s sh (e :: rest)
          = drainEvents (handleEvent s sh e).1 (handleEvent s sh e).2 rest := by
  have hcast : castU8 k = k := Nat.mod_eq_of_lt (by omega)
  refine ⟨?_, rfl, rfl, rfl, rfl⟩
  simp [handleEvent, midi_to_freq, hcast]

/-- Witness for C3 at middle C (key 60) on the freshly activated processor. -/
theorem note_event_semantics_witness :
    handleEvent (activate 48000) Params.default (.NoteOn (.specific 60))
        = ({ activate 48000 with
               frequency := 440 * (2 : ℝ) ^ ((((60 : ℕ) : ℝ) - 69) / 12),
               note_on := true }, Params.default)
      ∧ handleEvent (activate 48000) Params.default (.NoteOff (.specific 60))
          = ({ activate 48000 with note_on := false }, Params.default)
      ∧ handleEvent (activate 48000) Params.default (.NoteOn .wildcard)
          = (activate 48000, Params.default)
      ∧ handleEvent (activate 48000) Params.default (.NoteOff .wildcard)
          = (activate 48000, Params.default)
      ∧ drainEvents (activate 48000) Params.default (.Other :: [])
          = drainEvents (handleEvent (activate 48000) Params.default .Other).1
              (handleEvent (activate 48000) Params.default .Other).2 [] :=
  note_event_semantics (activate 48000) Params.default 60 .Other [] (by norm_num)

/-- The port loop cannot fail when every port's `channels()` call succeeds. -/
theorem processPorts_ok (b : Bool) (g st : ℝ) (audio : List Port) :
    ∀ phase, (∀ p ∈ audio, channelsOk p = true) →
      ∃ r, processPorts b g st phase audio = .ok r := by
  induction audio with
  | nil => exact fun phase _ => ⟨([], phase), rfl⟩
  | cons p rest ih =>
      intro phase hok
      have hp : channelsOk p = true := hok p (List.mem_cons_self _ _)
      have hrest := fun q hq => hok q (List.mem_cons_of_mem _ hq)
      cases hc : p.channels with
      | error e => simp [channelsOk, hc] at hp
      | ok v =>
          cases v with
          | none =>
              obtain ⟨r, hr⟩ := ih phase hrest
              exact ⟨(p :: r.1, r.2), by simp [processPorts, hc, hr]⟩
          | some cs =>
              obtain ⟨r, hr⟩ := ih (genBuffer b g st phase p.frames_count).2 hrest
              exact ⟨({ p with channels := .ok (some (writeChannels
                        (genBuffer b g st phase p.frames_count).1 cs)) } :: r.1, r.2),
                by simp [processPorts, hc, hr]⟩

/-- Claim C7 (amended): whenever every port's `channels()` view is
available, `process` cannot fail — it returns `ProcessStatus::Continue` for
every event batch, unsupported or malformed events included. -/
theorem process_continue_on_valid_buffers (s : CaveAudioProcessor) (shared : Params)
    (events : List CoreEvent) (audio : List Port)
    (hok : ∀ p ∈ audio, channelsOk p = true) :
    resultStatus (process s shared events audio) = some .Continue := by
  obtain ⟨r, hr⟩ := processPorts_ok (drainEvents s shared events).1.note_on
    (drainEvents s shared events).2.gain
    ((drainEvents s shared events).1.frequency / (drainEvents s shared events).1.sample_rate)
    audio (drainEvents s shared events).1.phase hok
  simp [process, hr, resultStatus]

/-- Witness for the amended C7: an unknown event over a three-frame port. -/
theorem process_continue_on_valid_buffers_witness :
    resultStatus (process (activate 48000) Params.default [CoreEvent.Other]
        [mkPort 3 [⟨.outputOnly, [0, 0, 0]⟩]]) = some .Continue :=
  process_continue_on_valid_buffers (activate 48000) Params.default [CoreEvent.Other]
    [mkPort 3 [⟨.outputOnly, [0, 0, 0]⟩]]
    (by intro p hp; rw [List.mem_singleton] at hp; subst hp; rfl)

/-- Counterexample to C7 as stated: a port whose `channels()` call fails
makes `process` return an error through the `?` operator, not
`ProcessStatus::Continue`. -/
theorem process_error_counterexample :
    process (activate 48000) Params.default []
        [{ frames_count := 64, channels := .error .invalidChannelBuffer }]
      = .error (.bufferError .invalidChannelBuffer) := rfl

/-- One wrapped advance stays in the closed unit interval when the step is
at most one. -/
theorem wrapPhase_mem (p st : ℝ) (hp : p ∈ Set.Icc (0 : ℝ) 1)
    (hst : st ∈ Set.Icc (0 : ℝ) 1) : wrapPhase (p + st) ∈ Set.Icc (0 : ℝ) 1 := by
  rw [Set.mem_Icc] at hp hst ⊢
  obtain ⟨hp0, hp1⟩ := hp
  obtain ⟨hs0, hs1⟩ := hst
  unfold wrapPhase
  split_ifs with h
  · constructor <;> linarith
  · constructor <;> linarith

/-- Iterated wrapped advances stay in the closed unit interval. -/
theorem phaseAfter_mem (st : ℝ) (hst : st ∈ Set.Icc (0 : ℝ) 1) (n : ℕ) :
    ∀ p ∈ Set.Icc (0 : ℝ) 1, phaseAfter st p n ∈ Set.Icc (0 : ℝ) 1 := by
  induction n with
  | zero => intro p hp; simpa [phaseAfter] using hp
  | succ n ih =>
      intro p hp
      rw [phaseAfter_succ]
      exact ih _ (wrapPhase_mem p st hp hst)

/-- The end-of-block phase stays in the closed unit interval. -/
theorem blockEndPhase_mem (b : Bool) (st p : ℝ) (n : ℕ)
    (hp : p ∈ Set.Icc (0 : ℝ) 1) (hst : st ∈ Set.Icc (0 : ℝ) 1) :
    blockEndPhase b st p n ∈ Set.Icc (0 : ℝ) 1 := by
  cases b with
  | false => simpa [blockEndPhase] using hp
  | true => simpa [blockEndPhase] using phaseAfter_mem st hst n p hp

/-- The port loop keeps the phase in the closed unit interval when the step
is at most one. -/
theorem processPorts_phase_mem (b : Bool) (g st : ℝ) (hst : st ∈ Set.Icc (0 : ℝ) 1)
    (audio : List Port) :
    ∀ phase ∈ Set.Icc (0 : ℝ) 1, ∀ r,
      processPorts b g st phase audio = .ok r → r.2 ∈ Set.Icc (0 : ℝ) 1 := by
  induction audio with
  | nil =>
      intro phase hp r hr
      have h : (([], phase) : List Port × ℝ) = r := by simpa [processPorts] using hr
      rw [← h]
      exact hp
  | cons p rest ih =>
      intro phase hp r hr
      cases hc : p.channels with
      | error e => simp [processPorts, hc] at hr
      | ok v =>
          cases v with
          | none =>
              cases hrec : processPorts b g st phase rest with
              | error err => simp [processPorts, hc, hrec] at hr
              | ok r' =>
                  have hmem := ih phase hp r' hrec
                  simp only [processPorts, hc, hrec] at hr
                  injection hr with hr2
                  rw [← hr2]
                  exact hmem
          | some cs =>
              have hend : (genBuffer b g st phase p.frames_count).2 ∈ Set.Icc (0 : ℝ) 1 := by
                rw [genBuffer_eq]
                exact blockEndPhase_mem b st phase p.frames_count hp hst
              cases hrec : processPorts b g st (genBuffer b g st phase p.frames_count).2 rest with
              | error err => simp [processPorts, hc, hrec] at hr
              | ok r' =>
                  have hmem := ih _ hend r' hrec
                  simp only [processPorts, hc, hrec] at hr
                  injection hr with hr2
                  rw [← hr2]
                  exact hmem

/-- Claim C4 (amended): if the phase lies in the closed interval `[0, 1]` at
block start and the post-drain step `frequency / sample_rate` lies in
`[0, 1]`, then the phase again lies in `[0, 1]` at the end of the block.
The end phase can be exactly `1.0` — the wrap fires only strictly above
`1.0` — so the claimed half-open `[0, 1)` does not hold, and a step above
`1.0` (frequency above the sample rate) can leave the interval entirely. -/
theorem phase_in_unit_interval (s : CaveAudioProcessor) (shared : Params)
    (events : List CoreEvent) (audio : List Port)
    (s1 : CaveAudioProcessor) (sh1 : Params)
    (hdrain : drainEvents s shared events = (s1, sh1))
    (hphase : s.phase ∈ Set.Icc (0 : ℝ) 1)
    (hstep : s1.frequency / s1.sample_rate ∈ Set.Icc (0 : ℝ) 1) :
    optPhaseInUnit (resultPhase (process s shared events audio)) := by
  have hph1 : s1.phase ∈ Set.Icc (0 : ℝ) 1 := by
    have h := drainEvents_phase events s shared
    rw [hdrain] at h
    have h2 : s1.phase = s.phase := h
    rw [h2]
    exact hphase
  cases hpp : processPorts s1.note_on sh1.gain (s1.frequency / s1.sample_rate)
      s1.phase audio with
  | error e => simp [process, hdrain, hpp, resultPhase, optPhaseInUnit]
  | ok r =>
      have hmem := processPorts_phase_mem s1.note_on sh1.gain
        (s1.frequency / s1.sample_rate) hstep audio s1.phase hph1 r hpp
      simp only [process, hdrain, hpp, resultPhase, optPhaseInUnit]
      exact hmem

/-- Witness for the amended C4: A4 at sample rate 880 (step one half) over a
four-frame port. -/
theorem phase_in_unit_interval_witness :
    optPhaseInUnit (resultPhase (process (activate 880) Params.default []
        [mkPort 4 [⟨.outputOnly, [0, 0, 0, 0]⟩]])) :=
  phase_in_unit_interval (activate 880) Params.default []
    [mkPort 4 [⟨.outputOnly, [0, 0, 0, 0]⟩]] (activate 880) Params.default rfl
    (by rw [Set.mem_Icc]; norm_num [activate])
    (by rw [Set.mem_Icc]; norm_num [activate])

/-- Counterexample to C4 as stated: note-on A4 at host sample rate 220
(step `2.0`) drives the phase to exactly `1.0` after a one-frame block, and
`1.0` is outside the claimed half-open interval `[0, 1)`. -/
theorem phase_exits_Ico_counterexample :
    resultPhase (process (activate 220) Params.default [CoreEvent.NoteOn (.specific 69)]
        [mkPort 1 [⟨ChannelKind.outputOnly, [0]⟩]]) = some 1
      ∧ (1 : ℝ) ∉ Set.Ico (0 : ℝ) 1 := by
  constructor
  · have hfreq : midi_to_freq (castU8 69) = 440 := by
      have h1 : castU8 69 = 69 := by norm_num [castU8]
      rw [h1]
      unfold midi_to_freq
      rw [show (((69 : ℕ) : ℝ) - 69) / 12 = 0 by norm_num]
      rw [Real.rpow_zero]
      norm_num
    have h0 : resultPhase (process (activate 220) Params.default
          [CoreEvent.NoteOn (.specific 69)] [mkPort 1 [⟨ChannelKind.outputOnly, [0]⟩]])
        = some (wrapPhase (0 + midi_to_freq (castU8 69) / 220)) := rfl
    rw [h0, hfreq]
    norm_num [wrapPhase]
  · rw [Set.mem_Ico]
    simp

end Cave
